import Mathlib

/-!
Verification of the search-and-topic-modeling pipeline of `src/app.py`
(Indian Express news explorer).

The program is shallowly embedded: the pandas data frame becomes a
`List Article`, Python strings are Lean `String`s manipulated through their
`List Char` data, and the per-search control flow of `main` (lines 154-181
of `src/app.py`) becomes a total function into an explicit outcome type.
Library calls whose code is not part of the repository (NLTK tokenization
and stopwords, gensim dictionary / bag-of-words construction, pandas
substring matching) are modelled from the specification's description of
them; each such definition carries a `Modelled from the spec:` comment.
The stochastic LDA fit itself (gensim `LdaModel`) is deliberately not
modelled: the spec marks it as non-deterministic, and no claim quantifies
over its output beyond the dictionary and corpus handed to it.
-/

/-- ASCII fragment of the whitespace removed by Python `str.strip()`. -/
def isPySpace (c : Char) : Bool :=
  c == ' ' || c == '\t' || c == '\n' || c == '\r' ||
    c == Char.ofNat 11 || c == Char.ofNat 12

/-- Python `str.strip()`: drop leading and trailing whitespace. -/
def pyStrip (s : String) : String :=
  String.mk (((s.data.dropWhile isPySpace).reverse.dropWhile isPySpace).reverse)

/-- Python `str.lower()`: character-wise lowercasing. -/
def pyLower (s : String) : String :=
  String.mk (s.data.map Char.toLower)

/-- Python `str.isalpha()`: non-empty and every character alphabetic. -/
def pyIsAlpha (w : String) : Bool :=
  !w.data.isEmpty && w.data.all Char.isAlpha

/-- The first list is an initial segment of the second. -/
def strStarts : List Char → List Char → Bool
  | [], _ => true
  | _ :: _, [] => false
  | a :: as, b :: bs => a == b && strStarts as bs

/-- Substring test: `hasSub pat s` holds when `pat` occurs contiguously
somewhere in `s`. -/
def hasSub (pat : List Char) : List Char → Bool
  | [] => strStarts pat []
  | b :: bs => strStarts pat (b :: bs) || hasSub pat bs

/-- Modelled from the spec: pandas `Series.str.contains` is used by the
program as plain case-sensitive substring containment (spec §4.3 and §9:
"simple substring containment"); the regex capability of the pandas call
is not part of the model. -/
def strContains (s pat : String) : Bool :=
  hasSub pat.data s.data

/-- One news article: a row of the dataset with columns
`headlines`, `content`, `category`, `url` (`src/app.py` line 15,
spec §3 "Article"). -/
structure Article where
  headlines : String
  content : String
  category : String
  url : String
  deriving DecidableEq

/-- The filter `search_articles` of `src/app.py` lines 35-42: lowercase the stripped
query; keep only rows of the selected category unless the selection is
"All"; if the query is non-empty, keep only rows whose lowercased headline
or content contains it. -/
def search_articles (query category_filter : String) (df : List Article) : List Article :=
  let q := pyLower (pyStrip query)
  let df1 := if category_filter ≠ "All" then
    df.filter (fun a => a.category == category_filter)
  else df
  if q ≠ "" then
    df1.filter (fun a =>
      strContains (pyLower a.headlines) q || strContains (pyLower a.content) q)
  else df1

/-- Spec-side category predicate (claim C1): keep everything when the
filter is the sentinel "All", otherwise require exact (case-sensitive)
equality with the row's category. -/
def catPred (c : String) (a : Article) : Bool :=
  c == "All" || a.category == c

/-- Spec-side query predicate (claim C1): trivially true when the query is
empty after trimming, otherwise the lowercased query must occur in the
lowercased headline or the lowercased content. -/
def queryPred (q : String) (a : Article) : Bool :=
  pyStrip q == "" ||
    strContains (pyLower a.headlines) (pyLower (pyStrip q)) ||
    strContains (pyLower a.content) (pyLower (pyStrip q))

/-- Modelled from the spec: the "fixed English stopword set" of NLTK
(spec §4.2 step 4), restricted to its all-alphabetic entries.  The entries
containing an apostrophe can never pass the `isalpha` test that the
program applies first, so dropping them cannot change `preprocess_text`. -/
def stop_words : List String :=
  ["i", "me", "my", "myself", "we", "our", "ours", "ourselves",
   "you", "your", "yours", "yourself", "yourselves",
   "he", "him", "his", "himself", "she", "her", "hers", "herself",
   "it", "its", "itself", "they", "them", "their", "theirs", "themselves",
   "what", "which", "who", "whom", "this", "that", "these", "those",
   "am", "is", "are", "was", "were", "be", "been", "being",
   "have", "has", "had", "having", "do", "does", "did", "doing",
   "a", "an", "the", "and", "but", "if", "or", "because", "as",
   "until", "while", "of", "at", "by", "for", "with", "about",
   "against", "between", "into", "through", "during", "before",
   "after", "above", "below", "to", "from", "up", "down", "in",
   "out", "on", "off", "over", "under", "again", "further", "then",
   "once", "here", "there", "when", "where", "why", "how", "all",
   "any", "both", "each", "few", "more", "most", "other", "some",
   "such", "no", "nor", "not", "only", "own", "same", "so", "than",
   "too", "very", "s", "t", "can", "will", "just", "don", "should",
   "now", "d", "ll", "m", "o", "re", "ve", "y", "ain", "aren",
   "couldn", "didn", "doesn", "hadn", "hasn", "haven", "isn", "ma",
   "mightn", "mustn", "needn", "shan", "shouldn", "wasn", "weren",
   "won", "wouldn"]

/-- Modelled from the spec: NLTK word tokenization, approximated as the
maximal runs of alphanumeric characters (spec §4.2 step 2:
"whitespace/punctuation-aware tokenization").  Punctuation-only tokens,
which the real tokenizer emits and the program's `isalpha` filter then
drops, are dropped here at once. -/
def word_tokenize (s : String) : List String :=
  ((s.data.splitOnP (fun c => !(c.isAlpha || c.isDigit))).map String.mk).filter
    (fun w => w ≠ "")

/-- The preprocessor `preprocess_text` of `src/app.py` lines 17-21: tokenize the
lowercased text, then keep the all-alphabetic tokens that are not
stopwords. -/
def preprocess_text (text : String) : List String :=
  let tokens := word_tokenize (pyLower text)
  tokens.filter (fun word => pyIsAlpha word && !stop_words.contains word)

/-- First-seen deduplication: the distinct elements of a list in order of
their first occurrence. -/
def fsDedup : List String → List String
  | [] => []
  | w :: l => w :: (fsDedup l).filter (fun v => v ≠ w)

/-- One step of dictionary construction: append a token unless it is
already present. -/
def addTok (acc : List String) (w : String) : List String :=
  if w ∈ acc then acc else acc ++ [w]

/-- Modelled from the spec: gensim `corpora.Dictionary(docs)`
(`src/app.py` line 25) as the list of distinct tokens in first-seen
order over the batch; the integer id of a token is its index in this
list (spec §3 "Term Dictionary": dense ids in first-seen order over the
current batch only). -/
def buildDictionary (docs : List (List String)) : List String :=
  docs.foldl (fun acc d => d.foldl addTok acc) []

/-- Modelled from the spec: gensim `dictionary.doc2bow(doc)`
(`src/app.py` line 26): one (term id, count) pair per distinct token of
the document (spec §3 "Bag-of-Words Corpus"). -/
def doc2bow (dict doc : List String) : List (Nat × Nat) :=
  (fsDedup doc).map (fun w => (List.indexOf w dict, List.count w doc))

/-- Decoding a Bag-of-Words row through the Term Dictionary: each
(term id, count) pair contributes `count` copies of the term with that
id. -/
def bowDecode (dict : List String) (bow : List (Nat × Nat)) : List String :=
  (bow.map (fun p => List.replicate p.2 (dict.getD p.1 ""))).flatten

/-- Outcome of the per-search topic-modeling section of `main`
(`src/app.py` lines 175-181): either a model is built from a dictionary
and corpus, or the explicit "No content available for topic modeling."
state is shown. -/
inductive PipeOutcome where
  | modelBuilt (dict : List String) (corpus : List (List (Nat × Nat))) : PipeOutcome
  | noContent : PipeOutcome
  deriving DecidableEq

/-- What one press of the Search button renders (`src/app.py` lines
154-181): the filtered rows, whether the "No articles found" notice is
shown, and the topic-modeling outcome. -/
structure SearchRender where
  results : List Article
  shownNoResults : Bool
  outcome : PipeOutcome
  deriving DecidableEq

/-- The per-search pipeline of `main` (`src/app.py` lines 154-181):
filter, preprocess each result's content, and run the topic-model builder
exactly when the list of processed documents is non-empty (Python
truthiness of `processed_docs`). -/
def main_search (q c : String) (df : List Article) : SearchRender :=
  let results := search_articles q c df
  let processed := results.map (fun a => preprocess_text a.content)
  { results := results
    shownNoResults := results.isEmpty
    outcome :=
      if processed.isEmpty then PipeOutcome.noContent
      else
        PipeOutcome.modelBuilt (buildDictionary processed)
          (processed.map (doc2bow (buildDictionary processed))) }

/-- Concrete article whose category column is literally "All". -/
def artAll : Article := ⟨"h", "x", "All", "u"⟩

/-- Concrete one-row dataset not matching the query "zzzznomatch". -/
def dfNoMatch : List Article := [⟨"headline", "content", "sports", "u"⟩]

/-- Concrete article whose content is a single stopword, so its token
sequence is empty. -/
def artStop : Article := ⟨"h", "the", "sports", "u"⟩

/-- Two-row dataset whose first row's category column is literally "All". -/
def dfAllCat : List Article :=
  [⟨"h1", "c1", "All", "u1"⟩, ⟨"h2", "c2", "Sports", "u2"⟩]

/-- Three-row dataset with two categories and no "All" category value. -/
def dfParts : List Article :=
  [⟨"h1", "c1", "tech", "u1"⟩, ⟨"h2", "c2", "biz", "u2"⟩,
   ⟨"h3", "c3", "tech", "u3"⟩]

/-- First row of `dfParts`. -/
def artTech : Article := ⟨"h1", "c1", "tech", "u1"⟩

theorem pyLower_empty : pyLower "" = "" := rfl

theorem pyLower_empty_iff (s : String) : pyLower s = "" ↔ s = "" := by
  cases s with
  | mk l =>
    constructor
    · intro h
      have h2 : l.map Char.toLower = [] := congrArg String.data h
      have h3 : l = [] := List.map_eq_nil_iff.mp h2
      subst h3
      rfl
    · intro h
      rw [h]
      exact pyLower_empty

/-- Workhorse: `search_articles` is one pass of `List.filter` with the
conjunction of the category predicate and the query predicate. -/
theorem search_eq_filter_char (q c : String) (df : List Article) :
    search_articles q c df =
      df.filter (fun a => catPred c a && queryPred q a) := by
  by_cases hc : c = "All" <;> by_cases hq : pyStrip q = ""
  · subst hc
    simp [search_articles, catPred, queryPred, hq, pyLower_empty,
      List.filter_true]
  · have hql : pyLower (pyStrip q) ≠ "" :=
      fun h => hq ((pyLower_empty_iff _).mp h)
    have hqb : (pyStrip q == "") = false := beq_eq_false_iff_ne.mpr hq
    subst hc
    simp [search_articles, catPred, queryPred, hql, hqb]
  · have hcb : (c == "All") = false := beq_eq_false_iff_ne.mpr hc
    simp [search_articles, catPred, queryPred, hc, hq, pyLower_empty, hcb]
  · have hql : pyLower (pyStrip q) ≠ "" :=
      fun h => hq ((pyLower_empty_iff _).mp h)
    have hcb : (c == "All") = false := beq_eq_false_iff_ne.mpr hc
    have hqb : (pyStrip q == "") = false := beq_eq_false_iff_ne.mpr hq
    simp only [search_articles]
    rw [if_pos hql, if_pos hc, List.filter_filter]
    refine List.filter_congr (fun a _ => ?_)
    simp [catPred, queryPred, hcb, hqb, Bool.and_comm]

/-- C1: `search_articles` returns exactly the rows that pass the exact
(case-sensitive) category test — vacuous for the sentinel "All" — and,
when the query is non-empty after trimming, contain the lowercased query
in the lowercased headline or content; the two predicates combine
conjunctively and the single `List.filter` pass preserves the original
relative row order. -/
theorem search_articles_spec (q c : String) (df : List Article) :
    search_articles q c df =
      df.filter (fun a => catPred c a && queryPred q a) :=
  search_eq_filter_char q c df

/-- C7: filtering an already-filtered result with the same query and
category returns it unchanged. -/
theorem search_articles_idem (q c : String) (df : List Article) :
    search_articles q c (search_articles q c df) = search_articles q c df := by
  simp only [search_eq_filter_char, List.filter_filter, Bool.and_self]

/-- C9: the "match all" sentinel is the literal string "All" compared for
inequality: with it no category restriction applies at all, and a row
whose category column is literally "All" can appear in a result only when
the filter is the sentinel itself — it is never selected by an exact
category comparison. -/
theorem sentinel_All_spec (q : String) (df : List Article) :
    search_articles q "All" df = df.filter (fun a => queryPred q a)
    ∧ ∀ (c : String) (a : Article), a.category = "All" →
        a ∈ search_articles q c df → c = "All" := by
  constructor
  · rw [search_eq_filter_char]
    refine List.filter_congr (fun a _ => ?_)
    simp [catPred]
  · intro c a hcat hmem
    by_contra hc
    rw [search_eq_filter_char] at hmem
    have hp := (List.mem_filter.mp hmem).2
    have h2 : (a.category == c) = false := by
      rw [hcat]
      exact beq_eq_false_iff_ne.mpr (Ne.symm hc)
    simp [catPred, beq_eq_false_iff_ne.mpr hc, h2] at hp

theorem sentinel_All_spec_witness :
    artAll.category = "All"
    ∧ artAll ∈ search_articles "" "All" [artAll]
    ∧ "All" = "All" :=
  ⟨by decide, by decide,
    (sentinel_All_spec "" [artAll]).2 "All" artAll (by decide) (by decide)⟩

/-- On a non-empty result set `main` reaches the model-building branch;
the dictionary and corpus it builds are spelled out. -/
theorem main_search_outcome_nonempty (q c : String) (df : List Article)
    (h : search_articles q c df ≠ []) :
    (main_search q c df).outcome =
      PipeOutcome.modelBuilt
        (buildDictionary
          ((search_articles q c df).map (fun a => preprocess_text a.content)))
        (((search_articles q c df).map (fun a => preprocess_text a.content)).map
          (doc2bow (buildDictionary
            ((search_articles q c df).map (fun a => preprocess_text a.content))))) := by
  simp [main_search, h]

/-- C2: the per-search pipeline is a total function landing in exactly one
of the two explicit states of `main`: either the topic model is built, or
the "no content" state is shown (which, by the branch structure, happens
exactly on an empty result set); no further outcome — in particular no
exceptional one — exists in `PipeOutcome`. -/
theorem pipeline_no_exception (q c : String) (df : List Article) :
    ((main_search q c df).outcome = PipeOutcome.noContent
        ∧ search_articles q c df = [])
    ∨ (∃ d cp, (main_search q c df).outcome = PipeOutcome.modelBuilt d cp
        ∧ search_articles q c df ≠ []) := by
  by_cases h : search_articles q c df = []
  · exact Or.inl ⟨by simp [main_search, h], h⟩
  · exact Or.inr ⟨_, _, main_search_outcome_nonempty q c df h, h⟩

/-- C6: when the filtered collection is empty the topic-model builder is
not reached — the outcome is the explicit "no content available" state —
and the explicit "no results" notice is rendered instead of an error. -/
theorem empty_results_no_model (q c : String) (df : List Article)
    (h : search_articles q c df = []) :
    (main_search q c df).outcome = PipeOutcome.noContent
      ∧ (main_search q c df).shownNoResults = true := by
  simp [main_search, h]

theorem empty_results_no_model_witness :
    search_articles "zzzznomatch" "All" dfNoMatch = []
    ∧ (main_search "zzzznomatch" "All" dfNoMatch).outcome = PipeOutcome.noContent
    ∧ (main_search "zzzznomatch" "All" dfNoMatch).shownNoResults = true :=
  ⟨by decide, empty_results_no_model "zzzznomatch" "All" dfNoMatch (by decide)⟩

/-- C10: the "no content" state appears exactly when zero rows matched;
whenever at least one row matched the builder is invoked, even when every
matched row's content preprocesses to an empty token sequence. -/
theorem model_built_iff_nonempty (q c : String) (df : List Article) :
    ((main_search q c df).outcome = PipeOutcome.noContent
      ↔ search_articles q c df = [])
    ∧ (search_articles q c df ≠ [] →
        ∃ d cp, (main_search q c df).outcome = PipeOutcome.modelBuilt d cp) := by
  by_cases h : search_articles q c df = []
  · refine ⟨by simp [main_search, h], fun hne => absurd h hne⟩
  · refine ⟨?_, fun hne => ⟨_, _, main_search_outcome_nonempty q c df hne⟩⟩
    simp [main_search, h]

theorem model_built_iff_nonempty_witness :
    search_articles "" "All" [artStop] ≠ []
    ∧ preprocess_text artStop.content = []
    ∧ ∃ d cp, (main_search "" "All" [artStop]).outcome =
        PipeOutcome.modelBuilt d cp :=
  ⟨by decide, by decide,
    (model_built_iff_nonempty "" "All" [artStop]).2 (by decide)⟩

/-- C3: `preprocess_text` is deterministic, every output token is wholly
alphabetic (in particular non-empty) and outside the stopword set, and
the empty string maps to the empty token sequence rather than an error. -/
theorem preprocess_text_spec (s : String) :
    preprocess_text s = preprocess_text s
    ∧ (∀ w ∈ preprocess_text s,
        (w.data ≠ [] ∧ ∀ ch ∈ w.data, ch.isAlpha = true) ∧ ¬ w ∈ stop_words)
    ∧ preprocess_text "" = [] := by
  refine ⟨rfl, ?_, by decide⟩
  intro w hw
  have hp := (List.mem_filter.mp hw).2
  rw [Bool.and_eq_true] at hp
  obtain ⟨ha, hs⟩ := hp
  rw [pyIsAlpha, Bool.and_eq_true] at ha
  obtain ⟨hne, hall⟩ := ha
  refine ⟨⟨?_, ?_⟩, ?_⟩
  · intro hnil
    rw [hnil] at hne
    simp at hne
  · exact fun ch hch => List.all_eq_true.mp hall ch hch
  · intro hmem
    simp only [List.contains, List.elem_eq_mem, Bool.not_eq_true',
      decide_eq_false_iff_not] at hs
    exact hs hmem

theorem preprocess_text_spec_witness :
    ("hello" ∈ preprocess_text "Hello world!")
    ∧ ("hello" : String).data ≠ []
    ∧ ¬ ("hello" : String) ∈ stop_words :=
  ⟨by decide,
    ((preprocess_text_spec "Hello world!").2.1 "hello" (by decide)).1.1,
    ((preprocess_text_spec "Hello world!").2.1 "hello" (by decide)).2⟩

theorem mem_addTok {acc : List String} {w x : String} :
    x ∈ addTok acc w ↔ x ∈ acc ∨ x = w := by
  by_cases h : w ∈ acc
  · simp only [addTok, if_pos h]
    constructor
    · exact Or.inl
    · rintro (hx | rfl)
      · exact hx
      · exact h
  · simp [addTok, if_neg h]

theorem mem_fsDedup {l : List String} {v : String} : v ∈ fsDedup l ↔ v ∈ l := by
  induction l with
  | nil => simp [fsDedup]
  | cons w t ih =>
    by_cases hv : v = w
    · subst hv
      simp [fsDedup]
    · simp [fsDedup, List.mem_filter, hv, ih]

theorem fsDedup_nodup : ∀ l : List String, (fsDedup l).Nodup
  | [] => List.nodup_nil
  | w :: t => by
    refine List.nodup_cons.mpr ⟨?_, (fsDedup_nodup t).filter _⟩
    intro hmem
    have h2 := (List.mem_filter.mp hmem).2
    simp at h2

theorem foldl_addTok_eq : ∀ (l acc : List String),
    l.foldl addTok acc = acc ++ (fsDedup l).filter (fun v => decide (¬ v ∈ acc))
  | [], acc => by simp [fsDedup]
  | w :: t, acc => by
    rw [List.foldl_cons, foldl_addTok_eq t (addTok acc w)]
    by_cases hw : w ∈ acc
    · simp only [addTok, if_pos hw, fsDedup]
      rw [List.filter_cons_of_neg (by simp [hw]), List.filter_filter]
      refine congrArg (acc ++ ·) (List.filter_congr fun v hv => ?_)
      by_cases hv2 : v ∈ acc
      · simp [hv2]
      · have hvw : v ≠ w := fun h => hv2 (h ▸ hw)
        simp [hv2, hvw]
    · simp only [addTok, if_neg hw, fsDedup]
      rw [List.filter_cons_of_pos (by simp [hw]), List.append_cons,
        List.filter_filter]
      rw [List.append_assoc, ← List.append_cons]
      refine congrArg (acc ++ ·) (congrArg (w :: ·) (List.filter_congr fun v hv => ?_))
      by_cases hv2 : v ∈ acc <;> by_cases hvw : v = w <;>
        simp [hv2, hvw, List.mem_append]

theorem buildDictionary_eq_fsDedup (docs : List (List String)) :
    buildDictionary docs = fsDedup docs.flatten := by
  have h1 : ∀ (ds : List (List String)) (acc : List String),
      ds.foldl (fun a d => d.foldl addTok a) acc = (ds.flatten).foldl addTok acc := by
    intro ds
    induction ds with
    | nil => intro acc; rfl
    | cons d t ih =>
      intro acc
      rw [List.foldl_cons, ih, List.flatten_cons, List.foldl_append]
  rw [buildDictionary, h1, foldl_addTok_eq, List.nil_append]
  exact List.filter_eq_self.mpr fun v _ => by simp

theorem mem_buildDictionary {docs : List (List String)} {w : String} :
    w ∈ buildDictionary docs ↔ ∃ d ∈ docs, w ∈ d := by
  rw [buildDictionary_eq_fsDedup, mem_fsDedup, List.mem_flatten]

theorem buildDictionary_nodup (docs : List (List String)) :
    (buildDictionary docs).Nodup := by
  rw [buildDictionary_eq_fsDedup]
  exact fsDedup_nodup _

theorem nodup_map_indexOf {l : List String} (h : l.Nodup) :
    l.map (fun w => List.indexOf w l) = List.range l.length := by
  refine List.ext_getElem (by simp) fun i h1 h2 => ?_
  simp only [List.getElem_map, List.getElem_range]
  exact List.indexOf_getElem h i (by simpa using h1)

/-- C4: the Term Dictionary built over a batch of token sequences has no
duplicate entries, contains exactly the batch's tokens, assigns term ids
(indices) 0..n-1 densely, and lists the tokens in first-seen order over
the batch's concatenation. -/
theorem buildDictionary_spec (docs : List (List String)) :
    (buildDictionary docs).Nodup
    ∧ (∀ w, w ∈ buildDictionary docs ↔ ∃ d ∈ docs, w ∈ d)
    ∧ (buildDictionary docs).map (fun w => List.indexOf w (buildDictionary docs))
        = List.range (buildDictionary docs).length
    ∧ buildDictionary docs = fsDedup docs.flatten :=
  ⟨buildDictionary_nodup docs, fun _ => mem_buildDictionary,
    nodup_map_indexOf (buildDictionary_nodup docs),
    buildDictionary_eq_fsDedup docs⟩

theorem getD_indexOf_eq {dict : List String} {w : String} (h : w ∈ dict) :
    dict.getD (List.indexOf w dict) "" = w := by
  have hlt : List.indexOf w dict < dict.length := List.indexOf_lt_length.mpr h
  rw [List.getD_eq_getElem?_getD, List.getElem?_eq_getElem hlt, Option.getD_some]
  exact List.getElem_indexOf hlt

theorem bowDecode_count (dict doc : List String)
    (hrec : ∀ v ∈ doc, dict.getD (List.indexOf v dict) "" = v) (w : String) :
    List.count w (bowDecode dict (doc2bow dict doc)) = List.count w doc := by
  simp only [bowDecode, doc2bow, List.map_map, List.count_flatten,
    Function.comp_def]
  have key : ∀ us : List String, us.Nodup → (∀ v ∈ us, v ∈ doc) →
      (us.map (fun v =>
        List.count w (List.replicate (List.count v doc)
          (dict.getD (List.indexOf v dict) "")))).sum
        = if w ∈ us then List.count w doc else 0 := by
    intro us
    induction us with
    | nil => simp
    | cons v t ih =>
      intro hnd hsub
      have hvdoc : v ∈ doc := hsub v (List.mem_cons_self v t)
      rw [List.map_cons, List.sum_cons, hrec v hvdoc,
        ih (List.nodup_cons.mp hnd).2 (fun u hu => hsub u (List.mem_cons_of_mem v hu))]
      by_cases hwv : w = v
      · subst hwv
        rw [List.count_replicate_self, if_pos (List.mem_cons_self w t),
          if_neg (List.nodup_cons.mp hnd).1, Nat.add_zero]
      · rw [List.count_replicate, if_neg (fun h => hwv ((beq_iff_eq ..).mp h).symm),
          Nat.zero_add]
        by_cases hwt : w ∈ t
        · rw [if_pos hwt, if_pos (List.mem_cons_of_mem v hwt)]
        · rw [if_neg hwt, if_neg (by simp [hwv, hwt])]
  rw [key (fsDedup doc) (fsDedup_nodup doc) (fun u hu => mem_fsDedup.mp hu)]
  by_cases hwdoc : w ∈ doc
  · rw [if_pos (mem_fsDedup.mpr hwdoc)]
  · rw [if_neg (fun h => hwdoc (mem_fsDedup.mp h)),
      List.count_eq_zero_of_not_mem hwdoc]

/-- C5: decoding a document's Bag-of-Words row (as produced on
`src/app.py` line 26) back through the Term Dictionary recovers exactly
the document's token multiset: every token has the same multiplicity in
the decoded list as in the original document. -/
theorem doc2bow_roundtrip (docs : List (List String)) (doc : List String)
    (hdoc : doc ∈ docs) (w : String) :
    List.count w
      (bowDecode (buildDictionary docs) (doc2bow (buildDictionary docs) doc))
      = List.count w doc :=
  bowDecode_count (buildDictionary docs) doc
    (fun _ hv => getD_indexOf_eq (mem_buildDictionary.mpr ⟨doc, hdoc, hv⟩)) w

theorem pyStrip_empty : pyStrip "" = "" := rfl

/-- With an empty query, a non-sentinel category selection is exactly the
category filter. -/
theorem search_empty_query (c : String) (df : List Article) (hc : c ≠ "All") :
    search_articles "" c df = df.filter (fun a => a.category == c) := by
  rw [search_eq_filter_char]
  refine List.filter_congr fun a _ => ?_
  simp [catPred, queryPred, pyStrip_empty, beq_eq_false_iff_ne.mpr hc]

theorem count_flatten_parts (df : List Article) :
    ∀ cs : List String, cs.Nodup →
      ∀ x : Article,
        List.count x
          ((cs.map (fun cc => df.filter (fun a => a.category == cc))).flatten)
          = if x.category ∈ cs then List.count x df else 0 := by
  intro cs
  induction cs with
  | nil => intro _ x; simp
  | cons cc t ih =>
    intro hnd x
    rw [List.map_cons, List.flatten_cons, List.count_append,
      ih (List.nodup_cons.mp hnd).2 x]
    by_cases hx : x.category = cc
    · have h1 : List.count x (df.filter (fun a => a.category == cc))
          = List.count x df :=
        List.count_filter (by simp [hx])
      rw [h1, if_neg (by rw [hx]; exact (List.nodup_cons.mp hnd).1),
        if_pos (by simp [hx]), Nat.add_zero]
    · have h1 : List.count x (df.filter (fun a => a.category == cc)) = 0 := by
        rw [List.count_eq_zero]
        intro hmem2
        exact hx (by simpa using (List.mem_filter.mp hmem2).2)
      rw [h1, Nat.zero_add]
      by_cases hxt : x.category ∈ t
      · rw [if_pos hxt, if_pos (List.mem_cons_of_mem _ hxt)]
      · rw [if_neg hxt, if_neg (by simp [hx, hxt])]

/-- C8 counterexample: "All" is a category value present in the
collection, yet filtering by it (with an empty query) also returns a row
of a different category — the claim "filtering by any category c present
in C returns only Articles whose category is exactly c" is false as
stated when a row's category column is literally the sentinel. -/
theorem category_partition_cex :
    ("All" ∈ dfAllCat.map (fun a => a.category))
    ∧ ¬ (∀ a ∈ search_articles "" "All" dfAllCat, a.category = "All") := by
  decide

/-- C8 (amended): for a category value `c` other than the sentinel "All",
filtering with an empty query returns exactly the rows of that category
in their original relative order; and when no row's category column is
literally "All", the per-category results over the distinct categories
concatenate to a multiset-equal rearrangement of the collection (their
union is C, each part in original order). -/
theorem category_partition (df : List Article) (c : String)
    (hc : c ≠ "All") (_hmem : c ∈ df.map (fun a => a.category)) :
    (∀ a ∈ search_articles "" c df, a.category = c)
    ∧ search_articles "" c df = df.filter (fun a => a.category == c)
    ∧ (¬ "All" ∈ df.map (fun a => a.category) →
        ∀ x : Article,
          List.count x
            (((fsDedup (df.map (fun a => a.category))).map
              (fun cc => search_articles "" cc df)).flatten)
            = List.count x df) := by
  have hfil := search_empty_query c df hc
  refine ⟨?_, hfil, ?_⟩
  · intro a ha
    rw [hfil] at ha
    simpa using (List.mem_filter.mp ha).2
  · intro hAll x
    rw [List.map_congr_left (fun cc hcc =>
      search_empty_query cc df
        (fun he => hAll (he ▸ mem_fsDedup.mp hcc)))]
    rw [count_flatten_parts df _ (fsDedup_nodup _) x]
    by_cases hx : x.category ∈ fsDedup (df.map (fun a => a.category))
    · rw [if_pos hx]
    · rw [if_neg hx, List.count_eq_zero_of_not_mem
        (fun hxdf => hx (mem_fsDedup.mpr (List.mem_map.mpr ⟨x, hxdf, rfl⟩)))]

theorem category_partition_witness :
    ("tech" ≠ "All")
    ∧ ("tech" ∈ dfParts.map (fun a => a.category))
    ∧ (¬ "All" ∈ dfParts.map (fun a => a.category))
    ∧ search_articles "" "tech" dfParts
        = dfParts.filter (fun a => a.category == "tech")
    ∧ List.count artTech
        (((fsDedup (dfParts.map (fun a => a.category))).map
          (fun cc => search_articles "" cc dfParts)).flatten)
        = List.count artTech dfParts :=
  ⟨by decide, by decide, by decide,
    (category_partition dfParts "tech" (by decide) (by decide)).2.1,
    (category_partition dfParts "tech" (by decide) (by decide)).2.2
      (by decide) artTech⟩

theorem doc2bow_roundtrip_witness :
    (["a", "b", "a"] ∈ [["a", "b", "a"], ["b", "c"]])
    ∧ List.count "a"
        (bowDecode (buildDictionary [["a", "b", "a"], ["b", "c"]])
          (doc2bow (buildDictionary [["a", "b", "a"], ["b", "c"]]) ["a", "b", "a"]))
        = List.count "a" ["a", "b", "a"] :=
  ⟨by decide,
    doc2bow_roundtrip [["a", "b", "a"], ["b", "c"]] ["a", "b", "a"] (by decide) "a"⟩
